import Mathlib

/-!
Verification development for the X Research MCP server
(incyd/marketplace-claude-crypto-research-tools).

Shallow embedding of the session-scoped credential resolution and
tool-dispatch layer:

* `src/mcp-server/src/api.ts` — `sortBy`, `filterEngagement`, `dedupe`,
  `parseSince`, the pagination loop of `search`;
* `src/mcp-server/src/db.ts` — `createSession`, `getSessionToken`,
  `logInteraction`;
* the v1.2 server entry point (Streamable HTTP transport) — tool-list
  selection, the `CallToolRequestSchema` handler (auth gate, `search_x`
  post-processing pipeline, error envelope, interaction-log record).

Effectful boundaries (HTTP fetch, Postgres, `Date` parsing of absolute
timestamps) are passed in as explicit oracle arguments; everything else
is translated directly from the TypeScript source.
-/

namespace XResearch

/-- Engagement metrics of a post, from the `Tweet` interface in
`api.ts` (`metrics` field). -/
structure Metrics where
  likes : Nat
  retweets : Nat
  replies : Nat
  quotes : Nat
  impressions : Nat
  bookmarks : Nat
deriving DecidableEq

/-- A post record, from the `Tweet` interface in `api.ts`. -/
structure Tweet where
  id : String
  text : String
  author_id : String
  username : String
  displayName : String
  created_at : String
  conversation_id : String
  metrics : Metrics
  urls : List String
  mentions : List String
  hashtags : List String
  tweet_url : String
deriving DecidableEq

/-- The metric argument accepted by `sortBy` in `api.ts`:
`"likes" | "impressions" | "retweets" | "replies"`. -/
inductive Metric where
  | likes
  | impressions
  | retweets
  | replies
deriving DecidableEq

/-- `t.metrics[metric]` — the numeric value `sortBy`'s comparator reads. -/
def metricVal (m : Metric) (t : Tweet) : Nat :=
  match m with
  | Metric.likes => t.metrics.likes
  | Metric.impressions => t.metrics.impressions
  | Metric.retweets => t.metrics.retweets
  | Metric.replies => t.metrics.replies

/-- Insert a post into a descending-sorted list, after every element with a
strictly larger metric and before the first element whose metric is ≤ its
own.  The sorted list holds elements that came later in the input, so the
inserted post precedes equal-metric ones: this reproduces the stable
descending order that the ECMAScript (stable) `Array.prototype.sort` with
comparator `(a, b) => b.metrics[metric] - a.metrics[metric]` produces. -/
def insertDescBy (m : Metric) (t : Tweet) : List Tweet → List Tweet
  | [] => [t]
  | x :: xs =>
    if metricVal m x > metricVal m t then x :: insertDescBy m t xs
    else t :: x :: xs

/-- `sortBy(tweets, metric)` from `api.ts`: a stable sort of a copy of the
input, descending by the chosen metric.  Embedded as a stable insertion
sort, which computes the same (unique) stable descending arrangement. -/
def sortBy (tweets : List Tweet) (m : Metric) : List Tweet :=
  match tweets with
  | [] => []
  | t :: ts => insertDescBy m t (sortBy ts m)

/-- One threshold test inside `filterEngagement`'s predicate:
`if (opts.minX && t.metrics.x < opts.minX) return false`.
A JavaScript number is falsy exactly when it is `0` (or absent), so a
threshold of `some 0` or `none` never rejects. -/
def passesMin (threshold : Option Nat) (value : Nat) : Bool :=
  match threshold with
  | none => true
  | some n => if n = 0 then true else decide (n ≤ value)

/-- `filterEngagement(tweets, {minLikes?, minImpressions?})` from `api.ts`:
keeps the posts meeting all supplied (truthy) thresholds. -/
def filterEngagement (tweets : List Tweet) (minLikes minImpressions : Option Nat) :
    List Tweet :=
  tweets.filter fun t =>
    passesMin minLikes t.metrics.likes && passesMin minImpressions t.metrics.impressions

/-- The filtering pass of `dedupe` from `api.ts`, with the mutable
`seen : Set<string>` made explicit: a post is kept iff its id is not in
`seen`, and a kept post's id is added to `seen`. -/
def dedupeAux (seen : List String) : List Tweet → List Tweet
  | [] => []
  | t :: ts =>
    if t.id ∈ seen then dedupeAux seen ts
    else t :: dedupeAux (t.id :: seen) ts

/-- `dedupe(tweets)` from `api.ts`: keeps the first occurrence of each post
id, preserving original order. -/
def dedupe (tweets : List Tweet) : List Tweet :=
  dedupeAux [] tweets

/-! ### `search_x` post-processing pipeline (CallToolRequestSchema handler) -/

/-- The `sort` argument of the `search_x` tool, with schema
`enum: ["likes", "impressions", "retweets", "recent"]`. -/
inductive SortArg where
  | likes
  | impressions
  | retweets
  | recent
deriving DecidableEq

/-- The metric the handler passes to `sortBy` when it casts a non-`recent`
`sort` argument to `"likes" | "impressions" | "retweets"`. -/
def sortArgMetric (s : SortArg) : Metric :=
  match s with
  | SortArg.likes => Metric.likes
  | SortArg.impressions => Metric.impressions
  | SortArg.retweets => Metric.retweets
  | SortArg.recent => Metric.likes

/-- JavaScript truthiness of an optional numeric argument:
`args["min_likes"]` is truthy iff it is present and non-zero. -/
def optNumTruthy (n : Option Nat) : Bool :=
  match n with
  | none => false
  | some k => decide (k ≠ 0)

/-- `(args["limit"] as number) || 15` — a falsy `limit` (absent, null, `0`)
falls back to the default `15`. -/
def effectiveLimit (limit : Option Nat) : Nat :=
  match limit with
  | none => 15
  | some n => if n = 0 then 15 else n

/-- The pure post-processing tail of the `search_x` case in the
`CallToolRequestSchema` handler, applied to the post sequence fetched from
the upstream client:

```
if (args["min_likes"]) tweets = api.filterEngagement(tweets, {minLikes: args["min_likes"]});
if (args["sort"] && args["sort"] !== "recent") tweets = api.sortBy(tweets, args["sort"]);
tweets = api.dedupe(tweets).slice(0, (args["limit"] as number) || 15);
```

An enum-valued `sort` string is always non-empty, hence truthy when
present, so the second guard is `sort` present and not `"recent"`. -/
def searchXPost (min_likes : Option Nat) (sort : Option SortArg) (limit : Option Nat)
    (fetched : List Tweet) : List Tweet :=
  let t1 := if optNumTruthy min_likes then filterEngagement fetched min_likes none
            else fetched
  let t2 := match sort with
    | some SortArg.recent => t1
    | some s => sortBy t1 (sortArgMetric s)
    | none => t1
  (dedupe t2).take (effectiveLimit limit)

/-- The `search_x` result payload `{ tweets, count: tweets.length }`. -/
def searchXResult (min_likes : Option Nat) (sort : Option SortArg) (limit : Option Nat)
    (fetched : List Tweet) : List Tweet × Nat :=
  let tweets := searchXPost min_likes sort limit fetched
  (tweets, tweets.length)

/-- The post-processing pipeline exactly as the specification words it
(spec §4.5 search, steps 3–5): if `minLikes` is *present* the posts are
filtered by engagement; then, if a `sort` metric is named and is not
`recent`, the posts are sorted by that metric (`recent` is not re-sorted);
then the sequence is deduped and truncated to the limit.  Stated alongside
`searchXPost` (the code's pipeline) for the refinement proof. -/
def searchXSpecPipeline (min_likes : Option Nat) (sort : Option SortArg)
    (limit : Option Nat) (fetched : List Tweet) : List Tweet :=
  let t1 := if min_likes.isSome then filterEngagement fetched min_likes none
            else fetched
  let t2 := match sort with
    | some SortArg.recent => t1
    | some s => sortBy t1 (sortArgMetric s)
    | none => t1
  (dedupe t2).take (effectiveLimit limit)

/-! ### `parseSince` and the search time filter (`api.ts`) -/

/-- Decimal value of a digit string, as JavaScript `parseInt` computes it on
a string matched by `\d+`. -/
def digitsToNat (cs : List Char) : Nat :=
  cs.foldl (fun acc c => acc * 10 + (c.toNat - 48)) 0

/-- Milliseconds per unit, from `parseSince`:
`m` → 60 000, `h` → 3 600 000, `d` → 86 400 000. -/
def unitMs (u : Char) : Nat :=
  if u = 'm' then 60000 else if u = 'h' then 3600000 else 86400000

/-- The relative-shorthand branch of `parseSince`: the regex
`^(\d+)(m|h|d)$` and the millisecond offset it yields.  Returns the offset
to subtract from the current time, or `none` when the regex does not
match. -/
def relSinceMs (s : String) : Option Nat :=
  let cs := s.data
  match cs.getLast? with
  | none => none
  | some u =>
    if u = 'm' ∨ u = 'h' ∨ u = 'd' then
      let digits := cs.dropLast
      if digits ≠ [] ∧ digits.all Char.isDigit then
        some (digitsToNat digits * unitMs u)
      else none
    else none

/-- `parseSince(since)` from `api.ts`, with time in integer milliseconds and
the absolute-timestamp branch (`new Date(since).toISOString()` for strings
containing `T` or a dash) abstracted as the oracle `absParse`, since `Date`
parsing is host-library behavior.  Returns the resolved `start_time`
timestamp or `none`. -/
def parseSince (absParse : String → Option Int) (now : Int) (since : String) :
    Option Int :=
  match relSinceMs since with
  | some ms => some (now - (ms : Int))
  | none =>
    if since.data.contains 'T' ∨ since.data.contains '-' then absParse since
    else none

/-- The `timeFilter` computation inside `search` (`api.ts`):
only a truthy (non-empty, present) `opts.since` is parsed, and only a
successful parse installs a `start_time` filter. -/
def searchTimeFilter (absParse : String → Option Int) (now : Int)
    (since : Option String) : Option Int :=
  match since with
  | none => none
  | some s => if s.isEmpty then none else parseSince absParse now s

/-! ### Pagination loop of `search` (`api.ts`) -/

/-- `opts.pages || 1` — the page-count default. -/
def effectivePages (pages : Option Nat) : Nat :=
  match pages with
  | none => 1
  | some n => if n = 0 then 1 else n

/-- The pagination loop of `search`, with the upstream HTTP endpoint
abstracted as an oracle from the page index to the parsed posts of that
page and whether the response carried a `meta.next_token`.  Returns the
accumulated posts and the number of upstream pages actually fetched.
The loop body fetches, appends, and breaks when no continuation token is
returned; otherwise it proceeds to the next iteration while
`page < pages`. -/
def fetchLoop (upstream : Nat → List Tweet × Bool) (page : Nat) :
    Nat → List Tweet × Nat
  | 0 => ([], 0)
  | n + 1 =>
    let (ts, hasNext) := upstream page
    if hasNext then
      let (rest, c) := fetchLoop upstream (page + 1) n
      (ts ++ rest, c + 1)
    else (ts, 1)

/-- The page-fetching behavior of `search(bearerToken, query, opts)`: the
loop runs for `opts.pages || 1` iterations (there is no clamp applied to
the supplied value). -/
def searchFetch (upstream : Nat → List Tweet × Bool) (pages : Option Nat) :
    List Tweet × Nat :=
  fetchLoop upstream 0 (effectivePages pages)

/-! ### Credential store (`db.ts`: `mcp_sessions` table) -/

/-- The `mcp_sessions` table plus the id-generator state: rows are
`(session_id, bearer_token)` pairs in insertion order; `counter` drives
generation of the next fresh identifier (standing in for
`gen_random_uuid()`, whose contract — used as the table's primary key —
is that generated identifiers never collide). -/
structure SessionStore where
  rows : List (String × String)
  counter : Nat

/-- The identifier produced for the `counter`-th insert.  Distinct counters
give distinct identifiers (witnessed below via the length), modelling the
uniqueness guarantee of `gen_random_uuid()` / the primary key. -/
def genId (n : Nat) : String :=
  String.mk (List.replicate (n + 1) 'u')

/-- Well-formedness of the store: every stored `session_id` was produced by
the generator at some earlier counter value.  Holds of the empty store and
is preserved by `createSession`. -/
def SessionStore.Wf (st : SessionStore) : Prop :=
  ∀ p ∈ st.rows, ∃ k, k < st.counter ∧ p.1 = genId k

/-- `createSession(bearerToken)` from `db.ts`:
`INSERT INTO mcp_sessions (bearer_token) VALUES ($1) RETURNING session_id`.
A fresh identifier is generated, the row is appended, and the identifier is
returned. -/
def createSession (st : SessionStore) (bearerToken : String) :
    String × SessionStore :=
  let sid := genId st.counter
  (sid, ⟨st.rows ++ [(sid, bearerToken)], st.counter + 1⟩)

/-- `getSessionToken(sessionId)` from `db.ts`:
`SELECT bearer_token FROM mcp_sessions WHERE session_id = $1`, then
`result.rows[0]?.bearer_token ?? null` — `none` when no row matches,
never a thrown error. -/
def getSessionToken (st : SessionStore) (sessionId : String) : Option String :=
  (st.rows.find? fun p => p.1 == sessionId).map Prod.snd

/-! ### Interaction-log record (`db.ts` `logInteraction` and its call site) -/

/-- A value of a tool-call argument, as carried in the JSON `args` object. -/
inductive ArgVal where
  | str (s : String)
  | num (n : Int)
deriving DecidableEq

/-- The `request` column content the handler logs:
`{ tool: name, arguments: args }`. -/
structure LogRequest where
  tool : String
  arguments : List (String × ArgVal)
deriving DecidableEq

/-- One `mcp_interactions` row as assembled by `logInteraction` from the
fields the `CallToolRequestSchema` handler passes
(`toolName`, `request`, `response`, `userIdentifier`). -/
structure LogEntry where
  userIdentifier : Option String
  toolName : String
  request : LogRequest
  response : String
deriving DecidableEq

/-- The log record the v1.2 handler builds for a completed call:
`logInteraction({ toolName: name, request: { tool: name, arguments: args },
response: result, userIdentifier: dbSessionId })`.  The arguments object is
logged verbatim. -/
def logInteractionRecord (name : String) (args : List (String × ArgVal))
    (response : String) (dbSessionId : Option String) : LogEntry :=
  { userIdentifier := dbSessionId
    toolName := name
    request := { tool := name, arguments := args }
    response := response }

/-! ### Tool catalog and dispatch (v1.2 server, `createMcpServer`) -/

/-- Names of the four data tools in `X_TOOLS`. -/
def DATA_TOOLS : List String :=
  ["search_x", "get_profile", "get_thread", "get_tweet"]

/-- The `ListToolsRequestSchema` response:
`bearerToken ? [SETUP_TOOL, ...X_TOOLS] : [SETUP_TOOL]`. -/
def listedTools (bearerToken : Option String) : List String :=
  match bearerToken with
  | some _ => "setup_session" :: DATA_TOOLS
  | none => ["setup_session"]

/-- Errors thrown inside the `CallToolRequestSchema` handler body, one
constructor per `throw new Error(...)` site (plus upstream failures
surfacing through the api calls):
* `unauthenticated` — "No bearer token for this session. Please call
  setup_session(...) first." (the no-token branch guarding the X tools);
* `blankBearerToken` — "bearer_token is required" (blank `setup_session`
  argument);
* `unknownTool` — the `default:` case of the switch;
* `upstream` — an error propagated out of an `api.*` call or the store. -/
inductive ToolErr where
  | unauthenticated
  | blankBearerToken
  | unknownTool (name : String)
  | upstream (message : String)
deriving DecidableEq

/-- A tool-call result payload (structure of `result` before JSON
serialization); the envelope wraps either this or an error object. -/
inductive ToolPayload where
  | setup (session_id : String) (mcp_url : String)
  | searchRes (tweets : List Tweet) (count : Nat)
  | profileRes (username : String) (tweets : List Tweet)
  | threadRes (tweets : List Tweet) (count : Nat)
  | tweetRes (tweet : Option Tweet)
deriving DecidableEq

/-- The uniform result envelope
`{ content: JSON.stringify(result), isError }`: the payload is the
serialized `result` object, which is either a success payload or
`{ error: message }`. -/
structure Envelope where
  payload : Except ToolErr ToolPayload
  isError : Bool

/-- The inner switch over the four X tools, taken with the bound bearer
token; each upstream-touching arm is abstracted as an oracle result
(`Except` capturing a thrown error from the api layer). -/
structure XToolRun where
  search : Except ToolErr ToolPayload
  profile : Except ToolErr ToolPayload
  thread : Except ToolErr ToolPayload
  getTweet : Except ToolErr ToolPayload

/-- Dispatch of a named X tool (the `switch (name)` in the handler):
unknown names hit the `default:` throw. -/
def dispatchXTool (name : String) (run : XToolRun) : Except ToolErr ToolPayload :=
  if name = "search_x" then run.search
  else if name = "get_profile" then run.profile
  else if name = "get_thread" then run.thread
  else if name = "get_tweet" then run.getTweet
  else Except.error (ToolErr.unknownTool name)

/-- The `CallToolRequestSchema` handler of the v1.2 server, with the
effectful sub-steps passed in (`runSetup` abstracts the
`setup_session` body — store insert and URL construction; `run` abstracts
the api calls).  Control flow as in the source:

```
try {
  if (name === "setup_session") { ... }
  else if (!bearerToken) { throw Error("No bearer token for this session...") }
  else { switch (name) { ... } }
} catch (err) { result = {error: ...}; isError = true }
```

A thrown error is caught and converted into the error envelope
(`isError: true`); a success is returned with `isError: false`. -/
def handleCallTool (bearerToken : Option String) (name : String)
    (runSetup : Except ToolErr ToolPayload) (run : XToolRun) : Envelope :=
  let attempt : Except ToolErr ToolPayload :=
    if name = "setup_session" then runSetup
    else match bearerToken with
      | none => Except.error ToolErr.unauthenticated
      | some _ => dispatchXTool name run
  match attempt with
  | Except.ok p => { payload := Except.ok p, isError := false }
  | Except.error e => { payload := Except.error e, isError := true }

/-! ### Helper lemmas: `dedupe` -/

theorem dedupeAux_sublist (seen : List String) (ts : List Tweet) :
    List.Sublist (dedupeAux seen ts) ts := by
  induction ts generalizing seen with
  | nil => simp [dedupeAux]
  | cons x rest ih =>
    by_cases hx : x.id ∈ seen
    · simpa [dedupeAux, hx] using (ih seen).cons x
    · simpa [dedupeAux, hx] using (ih (x.id :: seen)).cons₂ x

theorem mem_dedupeAux {seen : List String} {ts : List Tweet} {t : Tweet}
    (h : t ∈ dedupeAux seen ts) : t ∈ ts ∧ t.id ∉ seen := by
  induction ts generalizing seen with
  | nil => simp [dedupeAux] at h
  | cons x rest ih =>
    by_cases hx : x.id ∈ seen
    · simp only [dedupeAux, if_pos hx] at h
      obtain ⟨hmem, hns⟩ := ih h
      exact ⟨List.mem_cons_of_mem x hmem, hns⟩
    · simp only [dedupeAux, if_neg hx] at h
      rcases List.mem_cons.mp h with h | h
      · exact ⟨h ▸ List.mem_cons_self x rest, h ▸ hx⟩
      · obtain ⟨hmem, hns⟩ := ih h
        refine ⟨List.mem_cons_of_mem x hmem, fun hc => hns ?_⟩
        exact List.mem_cons_of_mem _ hc

theorem dedupeAux_ids_nodup (seen : List String) (ts : List Tweet) :
    ((dedupeAux seen ts).map Tweet.id).Nodup := by
  induction ts generalizing seen with
  | nil => simp [dedupeAux]
  | cons x rest ih =>
    by_cases hx : x.id ∈ seen
    · simpa [dedupeAux, hx] using ih seen
    · simp only [dedupeAux, if_neg hx, List.map_cons, List.nodup_cons]
      refine ⟨fun hc => ?_, ih (x.id :: seen)⟩
      obtain ⟨u, hu, hid⟩ := List.mem_map.mp hc
      exact (mem_dedupeAux hu).2 (hid ▸ List.mem_cons_self _ _)

theorem dedupeAux_eq_self (ts : List Tweet) (seen : List String)
    (hdisj : ∀ t ∈ ts, t.id ∉ seen) (hnd : (ts.map Tweet.id).Nodup) :
    dedupeAux seen ts = ts := by
  induction ts generalizing seen with
  | nil => simp [dedupeAux]
  | cons x rest ih =>
    have hx : x.id ∉ seen := hdisj x (List.mem_cons_self x rest)
    simp only [dedupeAux, if_neg hx]
    simp only [List.map_cons, List.nodup_cons] at hnd
    refine congrArg (x :: ·) (ih (x.id :: seen) ?_ hnd.2)
    intro t ht hc
    rcases List.mem_cons.mp hc with h | h
    · exact hnd.1 (h ▸ List.mem_map_of_mem Tweet.id ht)
    · exact hdisj t (List.mem_cons_of_mem x ht) h

theorem dedupeAux_find? {seen : List String} {ts : List Tweet} {t : Tweet}
    (h : t ∈ dedupeAux seen ts) :
    ts.find? (fun x => x.id == t.id) = some t := by
  induction ts generalizing seen with
  | nil => simp [dedupeAux] at h
  | cons x rest ih =>
    have hts : t.id ∉ seen := (mem_dedupeAux h).2
    by_cases hx : x.id ∈ seen
    · simp only [dedupeAux, if_pos hx] at h
      have hne : (x.id == t.id) = false := by
        simp only [beq_eq_false_iff_ne, ne_eq]
        intro hc
        exact hts (hc ▸ hx)
      simp only [List.find?_cons, hne]
      exact ih h
    · simp only [dedupeAux, if_neg hx] at h
      rcases List.mem_cons.mp h with h | h
      · subst h
        simp [List.find?_cons]
      · have hts' : t.id ∉ x.id :: seen := (mem_dedupeAux h).2
        have hne : (x.id == t.id) = false := by
          simp only [beq_eq_false_iff_ne, ne_eq]
          intro hc
          exact hts' (hc ▸ List.mem_cons_self _ _)
        simp only [List.find?_cons, hne]
        exact ih h

theorem dedupeAux_covers {seen : List String} {ts : List Tweet} {t : Tweet}
    (h : t ∈ ts) (hts : t.id ∉ seen) :
    ∃ u ∈ dedupeAux seen ts, u.id = t.id := by
  induction ts generalizing seen with
  | nil => simp at h
  | cons x rest ih =>
    by_cases hx : x.id ∈ seen
    · rcases List.mem_cons.mp h with h | h
      · exact absurd (h ▸ hx) hts
      · simpa [dedupeAux, hx] using ih h hts
    · simp only [dedupeAux, if_neg hx]
      rcases List.mem_cons.mp h with h | h
      · exact ⟨x, List.mem_cons_self _ _, by rw [h]⟩
      · by_cases hid : t.id = x.id
        · exact ⟨x, List.mem_cons_self _ _, hid.symm⟩
        · have hts' : t.id ∉ x.id :: seen := by
            intro hc
            rcases List.mem_cons.mp hc with hc | hc
            · exact hid hc
            · exact hts hc
          obtain ⟨u, hu, hid'⟩ := ih h hts'
          exact ⟨u, List.mem_cons_of_mem x hu, hid'⟩

theorem dedupe_idem (ts : List Tweet) : dedupe (dedupe ts) = dedupe ts := by
  unfold dedupe
  exact dedupeAux_eq_self _ [] (fun t _ => List.not_mem_nil _)
    (dedupeAux_ids_nodup [] ts)

/-! ### Helper lemmas: `sortBy` -/

theorem mem_insertDescBy {m : Metric} {t u : Tweet} {xs : List Tweet}
    (h : u ∈ insertDescBy m t xs) : u = t ∨ u ∈ xs := by
  induction xs with
  | nil => simpa [insertDescBy] using h
  | cons x rest ih =>
    by_cases hx : metricVal m x > metricVal m t
    · simp only [insertDescBy, if_pos hx] at h
      rcases List.mem_cons.mp h with h | h
      · exact Or.inr (h ▸ List.mem_cons_self x rest)
      · rcases ih h with h | h
        · exact Or.inl h
        · exact Or.inr (List.mem_cons_of_mem x h)
    · simp only [insertDescBy, if_neg hx] at h
      rcases List.mem_cons.mp h with h | h
      · exact Or.inl h
      · exact Or.inr h

theorem insertDescBy_pairwise {m : Metric} {t : Tweet} {xs : List Tweet}
    (h : xs.Pairwise fun a b => metricVal m b ≤ metricVal m a) :
    (insertDescBy m t xs).Pairwise fun a b => metricVal m b ≤ metricVal m a := by
  induction xs with
  | nil => simp [insertDescBy]
  | cons x rest ih =>
    rw [List.pairwise_cons] at h
    by_cases hx : metricVal m x > metricVal m t
    · simp only [insertDescBy, if_pos hx, List.pairwise_cons]
      refine ⟨fun u hu => ?_, ih h.2⟩
      rcases mem_insertDescBy hu with h' | h'
      · exact h' ▸ Nat.le_of_lt hx
      · exact h.1 u h'
    · simp only [insertDescBy, if_neg hx, List.pairwise_cons]
      push_neg at hx
      refine ⟨fun u hu => ?_, h⟩
      rcases List.mem_cons.mp hu with h' | h'
      · exact h' ▸ hx
      · exact Nat.le_trans (h.1 u h') hx

theorem insertDescBy_filter (m : Metric) (t : Tweet) (xs : List Tweet) (k : Nat) :
    (insertDescBy m t xs).filter (fun u => metricVal m u == k) =
      if metricVal m t = k then
        t :: xs.filter (fun u => metricVal m u == k)
      else xs.filter (fun u => metricVal m u == k) := by
  induction xs with
  | nil =>
    by_cases hk : metricVal m t = k <;>
      simp [insertDescBy, List.filter_cons, beq_iff_eq, hk]
  | cons x rest ih =>
    by_cases hx : metricVal m x > metricVal m t
    · simp only [insertDescBy, if_pos hx]
      by_cases hk : metricVal m t = k
      · have hxk : metricVal m x ≠ k := by
          intro hc
          exact Nat.lt_irrefl _ (hc ▸ hk ▸ hx)
        simp [List.filter_cons, beq_iff_eq, hxk, ih, hk]
      · simp [List.filter_cons, beq_iff_eq, ih, hk]
    · simp only [insertDescBy, if_neg hx]
      by_cases hk : metricVal m t = k <;>
        simp [List.filter_cons, beq_iff_eq, hk]

theorem sortBy_pairwise (ts : List Tweet) (m : Metric) :
    (sortBy ts m).Pairwise fun a b => metricVal m b ≤ metricVal m a := by
  induction ts with
  | nil => simp [sortBy]
  | cons t rest ih => exact insertDescBy_pairwise ih

theorem sortBy_stable (ts : List Tweet) (m : Metric) (k : Nat) :
    (sortBy ts m).filter (fun u => metricVal m u == k) =
      ts.filter (fun u => metricVal m u == k) := by
  induction ts with
  | nil => simp [sortBy]
  | cons t rest ih =>
    simp only [sortBy, insertDescBy_filter, ih]
    by_cases hk : metricVal m t = k
    · simp [List.filter_cons, hk]
    · simp [List.filter_cons, hk]

/-! ### Helper lemmas: `filterEngagement` and the pipeline -/

theorem passesMin_zero (v : Nat) : passesMin (some 0) v = true := by
  simp [passesMin]

theorem passesMin_none (v : Nat) : passesMin none v = true := by
  simp [passesMin]

theorem filterEngagement_zero_or_none (ts : List Tweet)
    (minLikes minImpressions : Option Nat)
    (hl : minLikes = none ∨ minLikes = some 0)
    (hi : minImpressions = none ∨ minImpressions = some 0) :
    filterEngagement ts minLikes minImpressions = ts := by
  have hp : ∀ t : Tweet,
      (passesMin minLikes t.metrics.likes &&
        passesMin minImpressions t.metrics.impressions) = true := by
    intro t
    rcases hl with h | h <;> rcases hi with h' | h' <;>
      simp [h, h', passesMin]
  simp only [filterEngagement]
  exact List.filter_eq_self.mpr fun t _ => hp t

/-! ### Helper lemmas: session store -/

theorem genId_injective : Function.Injective genId := by
  intro a b h
  have hd := congrArg String.data h
  simp only [genId] at hd
  have hl := congrArg List.length hd
  simpa using hl

theorem find?_append_of_none {α : Type} (l₁ l₂ : List α) (p : α → Bool)
    (h : l₁.find? p = none) : (l₁ ++ l₂).find? p = l₂.find? p := by
  induction l₁ with
  | nil => simp
  | cons x rest ih =>
    rw [List.find?_cons] at h
    rcases hpx : p x with hfalse | htrue
    · rw [hpx] at h
      simp only [List.cons_append, List.find?_cons, hpx]
      exact ih h
    · rw [hpx] at h
      simp at h

/-! ### Closed evaluations of `relSinceMs` used for the since-spec claims -/

theorem relSinceMs_1h : relSinceMs "1h" = some 3600000 := by decide

theorem relSinceMs_7d : relSinceMs "7d" = some 604800000 := by decide

theorem relSinceMs_banana : relSinceMs "banana" = none := by decide

/-- A sample post used by concrete witnesses. -/
def sampleTweet (i : String) (likes impressions : Nat) : Tweet :=
  { id := i, text := "t", author_id := "a", username := "u", displayName := "n"
    created_at := "c", conversation_id := "v"
    metrics := ⟨likes, 0, 0, 0, impressions, 0⟩
    urls := [], mentions := [], hashtags := [], tweet_url := "w" }

/-- A dummy set of tool-run oracles used by concrete witnesses. -/
def idleRun : XToolRun :=
  ⟨Except.error (ToolErr.upstream "idle"), Except.error (ToolErr.upstream "idle"),
   Except.error (ToolErr.upstream "idle"), Except.error (ToolErr.upstream "idle")⟩

/-! ## Claim theorems -/

/-- C1: the claim states that interaction-log records never contain the
credential, in particular that a `setup_session` call's logged request
arguments do not contain the supplied bearer token.  The code contradicts
this (and the repository README's "never included in interaction logs"):
the handler logs `request: { tool: name, arguments: args }` with the
arguments object verbatim, so for `setup_session` the logged request
arguments contain the bearer token. -/
theorem setup_session_token_is_logged (tok response : String)
    (dbSessionId : Option String) :
    ("bearer_token", ArgVal.str tok) ∈
      (logInteractionRecord "setup_session" [("bearer_token", ArgVal.str tok)]
        response dbSessionId).request.arguments := by
  simp [logInteractionRecord]

/-- C2: the claim states that the `pages` argument defaults to 1 and that
no search call ever fetches more than 5 upstream pages regardless of the
supplied value.  The default is real (`opts.pages || 1`), but the code
applies no clamp: with `pages = 6` and an upstream that returns a
continuation token on every page, the loop fetches 6 pages, exceeding the
1–5 range the tool schema documents. -/
theorem search_pages_not_capped_at_five :
    effectivePages none = 1 ∧
    (searchFetch (fun _ => ([], true)) (some 6)).2 = 6 ∧
    ¬ (searchFetch (fun _ => ([], true)) (some 6)).2 ≤ 5 := by
  refine ⟨rfl, rfl, by decide⟩

/-- C3: the `search_x` post-processing applies, in order: the engagement
filter when `minLikes` is present, then the metric sort when a sort metric
is named and is not `recent` (`recent` is not re-sorted), then dedupe and
truncation to the limit; the result payload is the post list with its
count.  Proved as an equality between the handler's pipeline
(`searchXPost`, where the filter guard is JavaScript truthiness) and the
spec-worded pipeline (`searchXSpecPipeline`, where the guard is presence):
the two coincide because a zero threshold makes `filterEngagement` the
identity. -/
theorem searchX_pipeline_follows_spec (min_likes : Option Nat)
    (sort : Option SortArg) (limit : Option Nat) (fetched : List Tweet) :
    searchXPost min_likes sort limit fetched =
      searchXSpecPipeline min_likes sort limit fetched ∧
    searchXResult min_likes sort limit fetched =
      (searchXPost min_likes sort limit fetched,
        (searchXPost min_likes sort limit fetched).length) := by
  refine ⟨?_, rfl⟩
  match min_likes with
  | none => rfl
  | some 0 =>
    simp [searchXPost, searchXSpecPipeline, optNumTruthy,
      filterEngagement_zero_or_none fetched (some 0) none (Or.inr rfl) (Or.inl rfl)]
  | some (n + 1) =>
    simp [searchXPost, searchXSpecPipeline, optNumTruthy]

/-- C4: an anonymous connection (no stored-session id, no raw credential)
lists exactly the `setup_session` tool, and every data operation attempted
without a bound bearer token produces the error envelope
(`isError: true`) carrying the unauthenticated error instead of
succeeding. -/
theorem anonymous_connection_setup_only (name : String)
    (hname : name ∈ DATA_TOOLS)
    (runSetup : Except ToolErr ToolPayload) (run : XToolRun) :
    listedTools none = ["setup_session"] ∧
    (handleCallTool none name runSetup run).isError = true ∧
    (handleCallTool none name runSetup run).payload =
      Except.error ToolErr.unauthenticated := by
  have hne : ¬ name = "setup_session" := by
    simp only [DATA_TOOLS, List.mem_cons, List.not_mem_nil, or_false] at hname
    rcases hname with h | h | h | h <;> subst h <;> decide
  have hbody : handleCallTool none name runSetup run =
      { payload := Except.error ToolErr.unauthenticated, isError := true } := by
    simp [handleCallTool, hne]
  exact ⟨rfl, by rw [hbody], by rw [hbody]⟩

/-- C5: `create(credential)` followed by `lookup` of the returned session
id yields the same credential, and lookup of an identifier not present in
the store returns not-found (`none`) rather than throwing (the embedding
is a total function returning `Option`). -/
theorem session_create_then_lookup (st : SessionStore) (tok sid : String)
    (hwf : st.Wf) (hsid : sid ∉ st.rows.map Prod.fst) :
    getSessionToken (createSession st tok).2 (createSession st tok).1 = some tok ∧
    getSessionToken st sid = none := by
  constructor
  · have hnone : st.rows.find? (fun p => p.1 == genId st.counter) = none := by
      apply List.find?_eq_none.mpr
      intro p hp
      obtain ⟨k, hk, hpk⟩ := hwf p hp
      simp only [beq_iff_eq]
      intro hc
      have hgen : genId k = genId st.counter := by rw [← hpk]; exact hc
      exact absurd (genId_injective hgen) (Nat.ne_of_lt hk)
    simp only [createSession, getSessionToken]
    rw [find?_append_of_none _ _ _ hnone]
    simp [List.find?_cons]
  · simp only [getSessionToken]
    rw [List.find?_eq_none.mpr]
    · rfl
    · intro p hp
      simp only [beq_iff_eq]
      intro hc
      exact hsid (hc ▸ List.mem_map_of_mem Prod.fst hp)

/-- C6: `dedupe` is idempotent, its output is a subsequence of the input
(so relative order of kept posts is preserved), every kept post is the
first occurrence of its id in the input, every input id survives, and the
output contains no duplicate ids. -/
theorem dedupe_idempotent_first_occurrence (ts : List Tweet) :
    dedupe (dedupe ts) = dedupe ts ∧
    List.Sublist (dedupe ts) ts ∧
    (∀ t ∈ dedupe ts, ts.find? (fun x => x.id == t.id) = some t) ∧
    (∀ t ∈ ts, ∃ u ∈ dedupe ts, u.id = t.id) ∧
    ((dedupe ts).map Tweet.id).Nodup :=
  ⟨dedupe_idem ts, dedupeAux_sublist [] ts,
   fun _ ht => dedupeAux_find? ht,
   fun _ ht => dedupeAux_covers ht (List.not_mem_nil _),
   dedupeAux_ids_nodup [] ts⟩

/-- C7: `sortBy` produces a sequence non-increasing in the chosen metric,
and it is stable: for every metric value, the posts carrying that value
appear in the output in exactly their input order (their filtered
subsequences coincide). -/
theorem sortBy_nonincreasing_stable (ts : List Tweet) (m : Metric) :
    ((sortBy ts m).Pairwise fun a b => metricVal m b ≤ metricVal m a) ∧
    ∀ k, (sortBy ts m).filter (fun u => metricVal m u == k) =
      ts.filter (fun u => metricVal m u == k) :=
  ⟨sortBy_pairwise ts m, sortBy_stable ts m⟩

/-- C8: the relative since-spec `"1h"` resolves to a timestamp within one
second of (now − 3600 s) — in fact exactly to it; `"7d"` resolves to
(now − 604800 s); and the unparseable spec `"banana"` yields no time
filter in `search` rather than an error (the parse is a total function
returning `none`). -/
theorem parseSince_relative_specs (absParse : String → Option Int) (now : Int) :
    (∃ t, parseSince absParse now "1h" = some t ∧
      (t - (now - 3600000)).natAbs ≤ 1000) ∧
    parseSince absParse now "7d" = some (now - 604800000) ∧
    parseSince absParse now "banana" = none ∧
    searchTimeFilter absParse now (some "banana") = none := by
  have hT : "banana".data.contains 'T' = false := by decide
  have hD : "banana".data.contains '-' = false := by decide
  have hbanana : parseSince absParse now "banana" = none := by
    simp [parseSince, relSinceMs_banana, hT, hD]
  refine ⟨⟨now - 3600000, ?_, by simp⟩, ?_, hbanana, ?_⟩
  · simp [parseSince, relSinceMs_1h]
  · simp [parseSince, relSinceMs_7d]
  · have hne : ¬ ("banana" : String).isEmpty = true := by decide
    simp [searchTimeFilter, hne, hbanana]

/-- C9: a `limit` of 0 is falsy, so `search_x` truncates to the default 15
exactly as when `limit` is absent (or null, which the `Option` models
together with absence): a zero limit never yields an empty result by
truncation to 0. -/
theorem limit_zero_uses_default_fifteen (min_likes : Option Nat)
    (sort : Option SortArg) (ts : List Tweet) :
    searchXPost min_likes sort (some 0) ts = searchXPost min_likes sort none ts ∧
    effectiveLimit (some 0) = 15 ∧ effectiveLimit none = 15 :=
  ⟨rfl, rfl, rfl⟩

/-- C10: a supplied threshold of 0 is falsy inside `filterEngagement`'s
predicate, so it behaves exactly like an absent threshold and returns the
input unchanged; likewise the `search_x` handler applies no engagement
filter when `min_likes` is 0, so the pipeline coincides with the
filter-free one. -/
theorem filterEngagement_zero_threshold (ts : List Tweet)
    (sort : Option SortArg) (limit : Option Nat) :
    filterEngagement ts (some 0) none = ts ∧
    filterEngagement ts none (some 0) = ts ∧
    filterEngagement ts (some 0) (some 0) = ts ∧
    searchXPost (some 0) sort limit ts = searchXPost none sort limit ts := by
  refine ⟨filterEngagement_zero_or_none ts _ _ (Or.inr rfl) (Or.inl rfl),
    filterEngagement_zero_or_none ts _ _ (Or.inl rfl) (Or.inr rfl),
    filterEngagement_zero_or_none ts _ _ (Or.inr rfl) (Or.inr rfl), ?_⟩
  simp [searchXPost, optNumTruthy]

/-! ## Witnesses -/

/-- Witness for C4 at a concrete data tool (`search_x`) and concrete
oracles: the anonymous connection lists only `setup_session` and the call
fails with the unauthenticated error envelope. -/
theorem anonymous_connection_setup_only_witness :
    "search_x" ∈ DATA_TOOLS ∧
    (listedTools none = ["setup_session"] ∧
     (handleCallTool none "search_x" (Except.error ToolErr.blankBearerToken)
        idleRun).isError = true ∧
     (handleCallTool none "search_x" (Except.error ToolErr.blankBearerToken)
        idleRun).payload = Except.error ToolErr.unauthenticated) :=
  ⟨by decide, anonymous_connection_setup_only "search_x" (by decide)
    (Except.error ToolErr.blankBearerToken) idleRun⟩

/-- Witness for C5 on the empty store: creating a session for a concrete
token and looking up the returned id yields that token, and looking up
`"nonexistent-id"` yields not-found. -/
theorem session_create_then_lookup_witness :
    (SessionStore.mk [] 0).Wf ∧
    "nonexistent-id" ∉ (SessionStore.mk [] 0).rows.map Prod.fst ∧
    (getSessionToken (createSession (SessionStore.mk [] 0) "AAAA-token").2
        (createSession (SessionStore.mk [] 0) "AAAA-token").1 = some "AAAA-token" ∧
     getSessionToken (SessionStore.mk [] 0) "nonexistent-id" = none) :=
  ⟨fun p hp => absurd hp (List.not_mem_nil p),
   by simp,
   session_create_then_lookup (SessionStore.mk [] 0) "AAAA-token" "nonexistent-id"
     (fun p hp => absurd hp (List.not_mem_nil p)) (by simp)⟩

end XResearch
